import Mathlib

/-!
# cfops plugin host: registry, runtime entry point and caller

A shallow embedding of `plugin/cfopsplugin/cfopsplugin.go`.

* Package-level state (`pluginMap`, `handshakeConfig`) is a record that every
  operation receives and returns.
* Calls that leave the package (`gob.Register`, `lo.G.Debug`, `UIOutput`,
  `plugin.Serve`, `log.SetOutput`, `plugin.NewClient`, `client.Client`,
  `rpcClient.Dispense`, `log.Fatal`) are appended, in program order, to an
  effect log carried by the same record.
* What the go-plugin library and the spawned subprocess answer is a parameter
  (`Host`); what `encoding/json` answers is a parameter too.
* The type parameter `β` stands for the non-nil values of the Go interface
  `BackupRestorer` (local implementations and remote proxies alike), `ρ` for
  the RPC client protocol values returned by `client.Client()`.
-/

namespace Cfops

/-- A Go `error`, represented by its message. -/
abbrev Error := String

/-- The struct `plugin.HandshakeConfig` of go-plugin, with the three fields the
package fills in. -/
structure HandshakeConfig where
  ProtocolVersion : Nat
  MagicCookieKey : String
  MagicCookieValue : String
deriving DecidableEq, Repr

/-- Modelled from the spec: the plugin metadata record, whose declaration is not
part of the source at hand. The spec gives it a `Name` and "other descriptive
fields". -/
structure Meta where
  Name : String
  Fields : List (String × String)
deriving DecidableEq, Repr

/-- A value of the Go interface type `BackupRestorer`: `none` is the nil
interface value, `some b` a value that implements the interface. -/
abbrev BackupRestorer (β : Type) := Option β

/-- Modelled from the spec: a value of the interface `Plugin` handed to `Start`.
The interface declaration is not part of the source at hand; the source uses
it as a `BackupRestorer` (`self`) and calls `GetMeta()` on it, which the spec
describes as synchronous, pure and free of side effects. -/
structure Plugin (β : Type) where
  self : β
  GetMeta : Meta

/-- The adapter `BackupRestorePlugin` stored in the registry: the source builds
it with the single field `P`. -/
structure BackupRestorePlugin (β : Type) where
  P : BackupRestorer β

/-- The Go type `map[string]plugin.Plugin` of the registry: `none` at a key means
the key is absent. -/
abbrev PluginMap (β : Type) := String → Option (BackupRestorePlugin β)

/-- The streams of the orchestrator that a client configuration refers to. -/
inductive Stream where
  | osStdout
  | osStderr
deriving DecidableEq, Repr

/-- The value built by `exec.Command(name, arg...)`: the path and the argument
vector, which starts with the name itself. -/
structure Cmd where
  Path : String
  Args : List String
deriving DecidableEq, Repr

/-- The call `exec.Command(name, arg...)`. -/
def execCommand (name : String) (arg : List String) : Cmd :=
  { Path := name, Args := name :: arg }

/-- The fields of `plugin.ServeConfig` that `Start` fills in. -/
structure ServeConfig (β : Type) where
  HandshakeConfig : HandshakeConfig
  Plugins : PluginMap β

/-- The fields of `plugin.ClientConfig` that `Call` fills in. -/
structure ClientConfig (β : Type) where
  Stderr : Stream
  SyncStdout : Stream
  SyncStderr : Stream
  HandshakeConfig : HandshakeConfig
  Plugins : PluginMap β
  Cmd : Cmd

/-- The handle `*plugin.Client` returned by `plugin.NewClient`: it owns the
configuration, and with it the command of the subprocess. -/
structure Client (β : Type) where
  config : ClientConfig β

/-- The call `plugin.NewClient(&cfg)`. -/
def NewClient {β : Type} (cfg : ClientConfig β) : Client β :=
  { config := cfg }

/-- The calls that leave the package, in the order the program makes them. -/
inductive Event (β ρ : Type) where
  /-- The call `gob.Register(plgn)`. -/
  | gobRegister (v : β)
  /-- A call `lo.G.Debug(label, operand, ...)`: the literal label and the name
  or error that follows it. -/
  | loDebug (label : String) (operand : String)
  /-- The call `UIOutput(text)`, which writes `text` to standard output. -/
  | uiOutput (text : String)
  /-- The call `plugin.Serve(&cfg)`. -/
  | pluginServe (cfg : ServeConfig β)
  /-- The call `log.SetOutput(ioutil.Discard)`. -/
  | logSetOutputDiscard
  /-- The call `plugin.NewClient(&cfg)`. -/
  | newClient (cfg : ClientConfig β)
  /-- The call `client.Client()`: spawns the subprocess and runs the handshake. -/
  | clientClient (c : Client β)
  /-- The call `rpcClient.Dispense(name)`. -/
  | dispense (rpc : ρ) (name : String)
  /-- The call `log.Fatal(err)`: prints to the logger and exits the process
  with status 1. -/
  | logFatal (err : Error)
  /-- The call `client.Kill()`, which ends the subprocess. No function of the
  package makes it; it is listed so that its absence from a run can be stated. -/
  | clientKill (c : Client β)

/-- The state of one process as far as the package is concerned: the two
package-level variables and the log of calls made so far. -/
structure Proc (β ρ : Type) where
  pluginMap : PluginMap β
  handshakeConfig : HandshakeConfig
  effects : List (Event β ρ)

/-- Appends one outside call to the log. -/
def Proc.emit {β ρ : Type} (s : Proc β ρ) (e : Event β ρ) : Proc β ρ :=
  { s with effects := s.effects ++ [e] }

/-- `RegisterPlugin(name, plugin)`: logs, then assigns
`pluginMap[name] = &BackupRestorePlugin{P: plugin}`. -/
def RegisterPlugin {β ρ : Type} (name : String) (plugin : BackupRestorer β)
    (s : Proc β ρ) : Proc β ρ :=
  let s1 := s.emit (Event.loDebug "registering plugin: " name)
  { s1 with pluginMap := fun k => if k = name then some { P := plugin } else s1.pluginMap k }

/-- `GetPlugins()`: returns the registry map. -/
def GetPlugins {β ρ : Type} (s : Proc β ρ) : PluginMap β :=
  s.pluginMap

/-- `GetHandshake()`: returns the package-level handshake descriptor. -/
def GetHandshake {β ρ : Type} (s : Proc β ρ) : HandshakeConfig :=
  s.handshakeConfig

/-- The answer of `json.Marshal`: the bytes (read as text, empty when nil) and
the error, if any. -/
abbrev Marshal := Meta → String × Option Error

/-- `Start(plgn)`, run with the argument vector `osArgs` (program name first)
in a build whose constant `PluginMeta` is `pluginMeta`. The constant is declared
outside the source at hand, so it is a parameter. `plugin.Serve` is recorded as
a call; what happens inside it belongs to go-plugin. -/
def Start {β ρ : Type} (pluginMeta : String) (jsonMarshal : Marshal)
    (osArgs : List String) (plgn : Plugin β) (s : Proc β ρ) : Proc β ρ :=
  let s1 := s.emit (Event.gobRegister plgn.self)
  let s2 := RegisterPlugin plgn.GetMeta.Name (some plgn.self) s1
  if osArgs.length = 2 ∧ osArgs[1]? = some pluginMeta then
    let b := (jsonMarshal plgn.GetMeta).1
    s2.emit (Event.uiOutput b)
  else
    s2.emit (Event.pluginServe
      { HandshakeConfig := s2.handshakeConfig, Plugins := GetPlugins s2 })

/-- What go-plugin and the spawned subprocess answer to the caller. -/
structure Host (β ρ : Type) where
  /-- The result of `client.Client()`. -/
  connect : Client β → Except Error ρ
  /-- The result of `rpcClient.Dispense(name)`: an error, or the raw value, where
  `none` is a raw value on which the assertion `raw.(BackupRestorer)` fails. -/
  dispense : ρ → String → Except Error (Option β)

/-- The ways control can leave `Call`. Its Go result type is
`(BackupRestorer, *plugin.Client)`: there is no error result. -/
inductive CallResult (β : Type) where
  /-- The statement `return raw.(BackupRestorer), client`. -/
  | returned (proxy : β) (client : Client β)
  /-- The call `log.Fatal(err)` ended the process with status 1. -/
  | fatal (err : Error)
  /-- The type assertion `raw.(BackupRestorer)` panicked. -/
  | panicked

/-- The client configuration that `Call` builds. -/
def callConfig {β ρ : Type} (filePath : String) (s : Proc β ρ) : ClientConfig β :=
  { Stderr := Stream.osStderr
    SyncStdout := Stream.osStdout
    SyncStderr := Stream.osStderr
    HandshakeConfig := GetHandshake s
    Plugins := GetPlugins s
    Cmd := execCommand filePath ["plugin"] }

/-- `Call(name, filePath)`. -/
def Call {β ρ : Type} (H : Host β ρ) (name filePath : String) (s : Proc β ρ) :
    CallResult β × Proc β ρ :=
  let s1 := RegisterPlugin name none s
  let s2 := s1.emit Event.logSetOutputDiscard
  let cfg := callConfig filePath s2
  let client := NewClient cfg
  let s3 := s2.emit (Event.newClient cfg)
  let s4 := s3.emit (Event.clientClient client)
  match H.connect client with
  | Except.error err =>
    (CallResult.fatal err, (s4.emit (Event.loDebug "rpcclient error: " err)).emit (Event.logFatal err))
  | Except.ok rpcClient =>
    let s5 := s4.emit (Event.dispense rpcClient name)
    match H.dispense rpcClient name with
    | Except.error err =>
      (CallResult.fatal err, (s5.emit (Event.loDebug "error: " err)).emit (Event.logFatal err))
    | Except.ok none => (CallResult.panicked, s5)
    | Except.ok (some raw) => (CallResult.returned raw client, s5)

/-- The client handle that `Call` builds: `plugin.NewClient` applied to the
configuration read after the placeholder registration and the logger change. -/
def callClient {β ρ : Type} (name filePath : String) (s : Proc β ρ) : Client β :=
  NewClient (callConfig filePath ((RegisterPlugin name none s).emit Event.logSetOutputDiscard))

/-! ## Observations on a run -/

/-- The calls a run added to the log: what `t` holds beyond the log of `s`. -/
def newEffects {β ρ : Type} (s t : Proc β ρ) : List (Event β ρ) :=
  t.effects.drop s.effects.length

/-- Whether the call is `UIOutput`. -/
def Event.isUIOutput {β ρ : Type} : Event β ρ → Bool
  | Event.uiOutput _ => true
  | _ => false

/-- Whether the call is `plugin.Serve`. -/
def Event.isServe {β ρ : Type} : Event β ρ → Bool
  | Event.pluginServe _ => true
  | _ => false

/-- Whether the call is `rpcClient.Dispense`. -/
def Event.isDispense {β ρ : Type} : Event β ρ → Bool
  | Event.dispense _ _ => true
  | _ => false

/-- Whether the call is `client.Kill`. -/
def Event.isKill {β ρ : Type} : Event β ρ → Bool
  | Event.clientKill _ => true
  | _ => false

/-- The run took the metadata branch of `Start`: it wrote through `UIOutput`. -/
def metadataBranch {β ρ : Type} (evs : List (Event β ρ)) : Bool :=
  evs.any Event.isUIOutput

/-- The run took the serve branch of `Start`: it called `plugin.Serve`. -/
def serveBranch {β ρ : Type} (evs : List (Event β ρ)) : Bool :=
  evs.any Event.isServe

/-- The texts written to standard output, in order. -/
def stdoutWrites {β ρ : Type} (evs : List (Event β ρ)) : List String :=
  evs.filterMap fun e =>
    match e with
    | Event.uiOutput t => some t
    | _ => none

/-- The configurations handed to `plugin.Serve`, in order. -/
def servedConfigs {β ρ : Type} (evs : List (Event β ρ)) : List (ServeConfig β) :=
  evs.filterMap fun e =>
    match e with
    | Event.pluginServe cfg => some cfg
    | _ => none

/-- Control came back to the caller of `Call` with a result. -/
def CallResult.returnsToCaller {β : Type} : CallResult β → Bool
  | CallResult.returned _ _ => true
  | _ => false

/-- The orchestrator process was ended by `log.Fatal`. -/
def CallResult.exitsProcess {β : Type} : CallResult β → Bool
  | CallResult.fatal _ => true
  | _ => false

/-- The client handle the caller of `Call` receives, if any. -/
def CallResult.handle {β : Type} : CallResult β → Option (Client β)
  | CallResult.returned _ c => some c
  | _ => none

/-- The proxy the caller of `Call` receives, if any. -/
def CallResult.proxy {β : Type} : CallResult β → Option β
  | CallResult.returned p _ => some p
  | _ => none

/-- The test `len(os.Args) == 2 && os.Args[1] == PluginMeta` of `Start`. -/
def metaArgs (pluginMeta : String) (osArgs : List String) : Prop :=
  osArgs.length = 2 ∧ osArgs[1]? = some pluginMeta

instance (pluginMeta : String) (osArgs : List String) : Decidable (metaArgs pluginMeta osArgs) := by
  unfold metaArgs
  exact inferInstance

/-- The calls every run of `Call` makes first, in order: the log line of the
placeholder registration, the logger change, the construction of the client
and the handshake attempt. -/
def callPrefix {β ρ : Type} (name filePath : String) (s : Proc β ρ) : List (Event β ρ) :=
  [Event.loDebug "registering plugin: " name, Event.logSetOutputDiscard,
   Event.newClient (callClient name filePath s).config,
   Event.clientClient (callClient name filePath s)]

/-- The calls one run of `Start` adds to the log. -/
def startEvents {β ρ : Type} (pluginMeta : String) (jsonMarshal : Marshal)
    (osArgs : List String) (plgn : Plugin β) (s : Proc β ρ) : List (Event β ρ) :=
  newEffects s (Start pluginMeta jsonMarshal osArgs plgn s)

/-- The calls one run of `Call` adds to the log. -/
def callEvents {β ρ : Type} (H : Host β ρ) (name filePath : String) (s : Proc β ρ) :
    List (Event β ρ) :=
  newEffects s (Call H name filePath s).2

/-! ## Concrete inputs -/

/-- A process that has just started: empty registry, empty log. -/
def freshProc : Proc Nat Nat :=
  { pluginMap := fun _ => none
    handshakeConfig := { ProtocolVersion := 1, MagicCookieKey := "KEY", MagicCookieValue := "VALUE" }
    effects := [] }

/-- A plugin named `tile`. -/
def tilePlugin : Plugin Nat :=
  { self := 7, GetMeta := { Name := "tile", Fields := [("Role", "backup")] } }

/-- A marshaller that renders the name only and never fails. -/
def nameMarshal : Marshal :=
  fun m => (m.Name, none)

/-- A host on which the handshake fails. -/
def handshakeFails : Host Nat Nat :=
  { connect := fun _ => Except.error "handshake failed"
    dispense := fun _ _ => Except.ok (some 0) }

/-- A host on which the handshake succeeds and the dispense fails. -/
def dispenseFails : Host Nat Nat :=
  { connect := fun _ => Except.ok 3
    dispense := fun _ n => Except.error ("unknown plugin type: " ++ n) }

/-- A host on which both steps succeed. -/
def bothSucceed : Host Nat Nat :=
  { connect := fun _ => Except.ok 3
    dispense := fun rpc _ => Except.ok (some (rpc + 1)) }

/-! ## Lemmas on the log -/

theorem newEffects_append {β ρ : Type} (s t : Proc β ρ) (l : List (Event β ρ))
    (h : t.effects = s.effects ++ l) : newEffects s t = l := by
  unfold newEffects
  rw [h]
  exact List.drop_left _ _

theorem RegisterPlugin_map {β ρ : Type} (n : String) (p : BackupRestorer β) (s : Proc β ρ) :
    GetPlugins (RegisterPlugin n p s) = Function.update (GetPlugins s) n (some { P := p }) := by
  funext k
  by_cases hk : k = n
  · subst hk
    simp [GetPlugins, RegisterPlugin, Proc.emit]
  · simp [GetPlugins, RegisterPlugin, Proc.emit, Function.update, hk]

theorem Start_meta_effects {β ρ : Type} (pm : String) (jm : Marshal) (args : List String)
    (plgn : Plugin β) (s : Proc β ρ) (h : metaArgs pm args) :
    (Start pm jm args plgn s).effects = s.effects ++
      [Event.gobRegister plgn.self, Event.loDebug "registering plugin: " plgn.GetMeta.Name,
       Event.uiOutput (jm plgn.GetMeta).1] := by
  unfold metaArgs at h
  simp [Start, h, RegisterPlugin, Proc.emit]

theorem Start_serve_effects {β ρ : Type} (pm : String) (jm : Marshal) (args : List String)
    (plgn : Plugin β) (s : Proc β ρ) (h : ¬ metaArgs pm args) :
    (Start pm jm args plgn s).effects = s.effects ++
      [Event.gobRegister plgn.self, Event.loDebug "registering plugin: " plgn.GetMeta.Name,
       Event.pluginServe
        { HandshakeConfig := s.handshakeConfig
          Plugins := Function.update (GetPlugins s) plgn.GetMeta.Name
            (some { P := some plgn.self }) }] := by
  have hm := RegisterPlugin_map plgn.GetMeta.Name (some plgn.self)
    (s.emit (Event.gobRegister plgn.self))
  unfold metaArgs at h
  simp only [Start, h, if_false]
  rw [hm]
  simp [RegisterPlugin, Proc.emit, GetPlugins]

theorem Start_map {β ρ : Type} (pm : String) (jm : Marshal) (args : List String)
    (plgn : Plugin β) (s : Proc β ρ) :
    GetPlugins (Start pm jm args plgn s) =
      Function.update (GetPlugins s) plgn.GetMeta.Name (some { P := some plgn.self }) := by
  have hm := RegisterPlugin_map plgn.GetMeta.Name (some plgn.self)
    (s.emit (Event.gobRegister plgn.self))
  unfold Start
  split
  · exact hm
  · exact hm

theorem Start_handshake {β ρ : Type} (pm : String) (jm : Marshal) (args : List String)
    (plgn : Plugin β) (s : Proc β ρ) :
    (Start pm jm args plgn s).handshakeConfig = s.handshakeConfig := by
  unfold Start
  split <;> rfl

theorem Call_handshake_error {β ρ : Type} (H : Host β ρ) (name filePath : String) (s : Proc β ρ)
    (err : Error) (h : H.connect (callClient name filePath s) = Except.error err) :
    (Call H name filePath s).1 = CallResult.fatal err ∧
    (Call H name filePath s).2.effects = s.effects ++ (callPrefix name filePath s ++
      [Event.loDebug "rpcclient error: " err, Event.logFatal err]) := by
  unfold callClient at h
  unfold Call
  simp only [h]
  refine ⟨?_, ?_⟩
  · trivial
  · simp [callPrefix, callClient, RegisterPlugin, Proc.emit, NewClient]

theorem Call_dispense_error {β ρ : Type} (H : Host β ρ) (name filePath : String) (s : Proc β ρ)
    (rpc : ρ) (err : Error) (h : H.connect (callClient name filePath s) = Except.ok rpc)
    (hd : H.dispense rpc name = Except.error err) :
    (Call H name filePath s).1 = CallResult.fatal err ∧
    (Call H name filePath s).2.effects = s.effects ++ (callPrefix name filePath s ++
      [Event.dispense rpc name, Event.loDebug "error: " err, Event.logFatal err]) := by
  unfold callClient at h
  unfold Call
  simp only [h, hd]
  refine ⟨?_, ?_⟩
  · trivial
  · simp [callPrefix, callClient, RegisterPlugin, Proc.emit, NewClient]

theorem Call_assert_panic {β ρ : Type} (H : Host β ρ) (name filePath : String) (s : Proc β ρ)
    (rpc : ρ) (h : H.connect (callClient name filePath s) = Except.ok rpc)
    (hd : H.dispense rpc name = Except.ok none) :
    (Call H name filePath s).1 = CallResult.panicked ∧
    (Call H name filePath s).2.effects = s.effects ++ (callPrefix name filePath s ++
      [Event.dispense rpc name]) := by
  unfold callClient at h
  unfold Call
  simp only [h, hd]
  refine ⟨?_, ?_⟩
  · trivial
  · simp [callPrefix, callClient, RegisterPlugin, Proc.emit, NewClient]

theorem Call_success {β ρ : Type} (H : Host β ρ) (name filePath : String) (s : Proc β ρ)
    (rpc : ρ) (raw : β) (h : H.connect (callClient name filePath s) = Except.ok rpc)
    (hd : H.dispense rpc name = Except.ok (some raw)) :
    (Call H name filePath s).1 = CallResult.returned raw (callClient name filePath s) ∧
    (Call H name filePath s).2.effects = s.effects ++ (callPrefix name filePath s ++
      [Event.dispense rpc name]) := by
  unfold callClient at h
  unfold Call
  simp only [h, hd]
  refine ⟨?_, ?_⟩
  · rfl
  · simp [callPrefix, callClient, RegisterPlugin, Proc.emit, NewClient]

theorem startEvents_meta {β ρ : Type} (pm : String) (jm : Marshal) (args : List String)
    (plgn : Plugin β) (s : Proc β ρ) (h : metaArgs pm args) :
    startEvents pm jm args plgn s =
      [Event.gobRegister plgn.self, Event.loDebug "registering plugin: " plgn.GetMeta.Name,
       Event.uiOutput (jm plgn.GetMeta).1] :=
  newEffects_append _ _ _ (Start_meta_effects pm jm args plgn s h)

theorem startEvents_serve {β ρ : Type} (pm : String) (jm : Marshal) (args : List String)
    (plgn : Plugin β) (s : Proc β ρ) (h : ¬ metaArgs pm args) :
    startEvents pm jm args plgn s =
      [Event.gobRegister plgn.self, Event.loDebug "registering plugin: " plgn.GetMeta.Name,
       Event.pluginServe
        { HandshakeConfig := s.handshakeConfig
          Plugins := Function.update (GetPlugins s) plgn.GetMeta.Name
            (some { P := some plgn.self }) }] :=
  newEffects_append _ _ _ (Start_serve_effects pm jm args plgn s h)

theorem metaArgs_pair (pm exe : String) : metaArgs pm [exe, pm] := by
  simp [metaArgs]

theorem branches_of_args {β ρ : Type} (pm : String) (jm : Marshal) (args : List String)
    (plgn : Plugin β) (s : Proc β ρ) :
    (metaArgs pm args → metadataBranch (startEvents pm jm args plgn s) = true ∧
      serveBranch (startEvents pm jm args plgn s) = false) ∧
    (¬ metaArgs pm args → metadataBranch (startEvents pm jm args plgn s) = false ∧
      serveBranch (startEvents pm jm args plgn s) = true) := by
  constructor
  · intro h
    rw [startEvents_meta pm jm args plgn s h]
    simp [metadataBranch, serveBranch, Event.isUIOutput, Event.isServe]
  · intro h
    rw [startEvents_serve pm jm args plgn s h]
    simp [metadataBranch, serveBranch, Event.isUIOutput, Event.isServe]

/-! ## The registry -/

/-- C1: after `RegisterPlugin(n, p)` the map returned by `GetPlugins` is the former
map updated at `n` with an adapter whose field `P` is `p`. The entry for `n` is
inserted or overwritten, every entry under another name is unchanged and no
entry is removed. The operation is total: an overwrite raises no error. -/
theorem registerPlugin_updates_registry {β ρ : Type} (s : Proc β ρ) (n : String)
    (p : BackupRestorer β) :
    GetPlugins (RegisterPlugin n p s) = Function.update (GetPlugins s) n (some { P := p }) ∧
    (GetPlugins (RegisterPlugin n p s) n).map (fun a => a.P) = some p ∧
    (∀ k, k ≠ n → GetPlugins (RegisterPlugin n p s) k = GetPlugins s k) ∧
    (∀ k, (GetPlugins s k).isSome = true → (GetPlugins (RegisterPlugin n p s) k).isSome = true) := by
  have hm := RegisterPlugin_map n p s
  refine ⟨hm, ?_, ?_, ?_⟩
  · rw [hm]
    simp
  · intro k hk
    rw [hm]
    simp [Function.update, hk]
  · intro k hsome
    rw [hm]
    by_cases hk : k = n
    · subst hk
      simp
    · simpa [Function.update, hk] using hsome

/-! ## The runtime entry point -/

/-- C2: `Start` takes the metadata branch exactly when the argument vector has
length 2 and its second element is `PluginMeta`; on every other vector (program
name only, one other argument, two or more arguments, or none at all) it takes
the serve branch and calls `plugin.Serve`. Exactly one branch is taken. -/
theorem start_selects_one_branch {β ρ : Type} (pm : String) (jm : Marshal)
    (args : List String) (plgn : Plugin β) (s : Proc β ρ) :
    (metadataBranch (startEvents pm jm args plgn s) = true ↔
      (args.length = 2 ∧ args[1]? = some pm)) ∧
    (serveBranch (startEvents pm jm args plgn s) = true ↔
      ¬ (args.length = 2 ∧ args[1]? = some pm)) ∧
    (metadataBranch (startEvents pm jm args plgn s) =
      !serveBranch (startEvents pm jm args plgn s)) ∧
    serveBranch (startEvents pm jm [] plgn s) = true ∧
    (∀ exe, serveBranch (startEvents pm jm [exe] plgn s) = true) ∧
    (∀ exe a, a ≠ pm → serveBranch (startEvents pm jm [exe, a] plgn s) = true) ∧
    (∀ exe a b rest, serveBranch (startEvents pm jm (exe :: a :: b :: rest) plgn s) = true) := by
  have key : ∀ l : List String,
      (metaArgs pm l → metadataBranch (startEvents pm jm l plgn s) = true ∧
        serveBranch (startEvents pm jm l plgn s) = false) ∧
      (¬ metaArgs pm l → metadataBranch (startEvents pm jm l plgn s) = false ∧
        serveBranch (startEvents pm jm l plgn s) = true) :=
    fun l => branches_of_args pm jm l plgn s
  refine ⟨?_, ?_, ?_, ?_, ?_, ?_, ?_⟩
  · by_cases h : metaArgs pm args
    · exact ⟨fun _ => h, fun _ => ((key args).1 h).1⟩
    · constructor
      · intro hb
        rw [((key args).2 h).1] at hb
        exact absurd hb (by decide)
      · intro hm
        exact absurd hm h
  · by_cases h : metaArgs pm args
    · constructor
      · intro hb
        rw [((key args).1 h).2] at hb
        exact absurd hb (by decide)
      · intro hn
        exact absurd h hn
    · exact ⟨fun _ => h, fun _ => ((key args).2 h).2⟩
  · by_cases h : metaArgs pm args
    · rw [((key args).1 h).1, ((key args).1 h).2]
      rfl
    · rw [((key args).2 h).1, ((key args).2 h).2]
      rfl
  · exact ((key []).2 (by simp [metaArgs])).2
  · intro exe
    exact ((key [exe]).2 (by simp [metaArgs])).2
  · intro exe a ha
    exact ((key [exe, a]).2 (by simp [metaArgs, ha])).2
  · intro exe a b rest
    exact ((key (exe :: a :: b :: rest)).2 (by simp [metaArgs])).2

/-- C3: in metadata mode `Start` writes exactly one text to the output, the text
that `json.Marshal` yields for the metadata returned by the plugin's `GetMeta`,
and it does not call `plugin.Serve`: the run consists of the `gob.Register`
call, the registration log line and the single `UIOutput` call. -/
theorem start_metadata_writes_marshalled_meta {β ρ : Type} (pm : String) (jm : Marshal)
    (exe : String) (plgn : Plugin β) (s : Proc β ρ) :
    stdoutWrites (startEvents pm jm [exe, pm] plgn s) = [(jm plgn.GetMeta).1] ∧
    (∀ text, jm plgn.GetMeta = (text, none) →
      stdoutWrites (startEvents pm jm [exe, pm] plgn s) = [text]) ∧
    serveBranch (startEvents pm jm [exe, pm] plgn s) = false ∧
    servedConfigs (startEvents pm jm [exe, pm] plgn s) = [] ∧
    startEvents pm jm [exe, pm] plgn s =
      [Event.gobRegister plgn.self, Event.loDebug "registering plugin: " plgn.GetMeta.Name,
       Event.uiOutput (jm plgn.GetMeta).1] := by
  have he := startEvents_meta pm jm [exe, pm] plgn s (metaArgs_pair pm exe)
  rw [he]
  refine ⟨by simp [stdoutWrites], ?_, by simp [serveBranch, Event.isServe],
    by simp [servedConfigs], rfl⟩
  intro text ht
  simp [stdoutWrites, ht]

/-- C4, as the code has it: a run of `Start` with the metadata argument changes the
registry only at the plugin's metadata name, where it stores the adapter of the
plugin; it leaves the handshake descriptor alone and starts no server. A second
run from the state the first one left writes the same text, leaves the registry
as the first run left it and starts no server either. -/
theorem start_metadata_idempotent {β ρ : Type} (pm : String) (jm : Marshal)
    (exe : String) (plgn : Plugin β) (s : Proc β ρ) :
    GetPlugins (Start pm jm [exe, pm] plgn s) =
      Function.update (GetPlugins s) plgn.GetMeta.Name (some { P := some plgn.self }) ∧
    (∀ k, k ≠ plgn.GetMeta.Name →
      GetPlugins (Start pm jm [exe, pm] plgn s) k = GetPlugins s k) ∧
    GetHandshake (Start pm jm [exe, pm] plgn s) = GetHandshake s ∧
    serveBranch (startEvents pm jm [exe, pm] plgn s) = false ∧
    stdoutWrites (startEvents pm jm [exe, pm] plgn (Start pm jm [exe, pm] plgn s)) =
      stdoutWrites (startEvents pm jm [exe, pm] plgn s) ∧
    GetPlugins (Start pm jm [exe, pm] plgn (Start pm jm [exe, pm] plgn s)) =
      GetPlugins (Start pm jm [exe, pm] plgn s) ∧
    serveBranch (startEvents pm jm [exe, pm] plgn (Start pm jm [exe, pm] plgn s)) = false := by
  have hmeta := metaArgs_pair pm exe
  refine ⟨Start_map pm jm _ plgn s, ?_, Start_handshake pm jm _ plgn s, ?_, ?_, ?_, ?_⟩
  · intro k hk
    rw [Start_map]
    simp [Function.update, hk]
  · exact ((branches_of_args pm jm _ plgn s).1 hmeta).2
  · rw [startEvents_meta pm jm _ plgn _ hmeta, startEvents_meta pm jm _ plgn _ hmeta]
  · rw [Start_map pm jm _ plgn (Start pm jm [exe, pm] plgn s), Start_map pm jm _ plgn s]
    simp
  · exact ((branches_of_args pm jm _ plgn _).1 hmeta).2

/-- C4, as the claim has it, fails: started on a fresh process with the metadata
argument, `Start` takes the metadata branch and the registry, empty before the
run, holds an entry for the plugin after it. -/
theorem start_metadata_changes_registry :
    metadataBranch (startEvents "plugin-meta" nameMarshal ["tile-plugin", "plugin-meta"]
      tilePlugin freshProc) = true ∧
    (GetPlugins freshProc "tile").isSome = false ∧
    (GetPlugins (Start "plugin-meta" nameMarshal ["tile-plugin", "plugin-meta"]
      tilePlugin freshProc) "tile").isSome = true ∧
    GetPlugins (Start "plugin-meta" nameMarshal ["tile-plugin", "plugin-meta"]
      tilePlugin freshProc) ≠ GetPlugins freshProc := by
  refine ⟨by decide, by decide, by decide, ?_⟩
  intro h
  have h2 := congrFun h "tile"
  have h3 : (GetPlugins (Start "plugin-meta" nameMarshal ["tile-plugin", "plugin-meta"]
      tilePlugin freshProc) "tile").isSome = (GetPlugins freshProc "tile").isSome := by
    rw [h2]
  exact absurd h3 (by decide)

/-! ## The caller -/

theorem callEvents_handshake_error {β ρ : Type} (H : Host β ρ) (name filePath : String)
    (s : Proc β ρ) (err : Error)
    (h : H.connect (callClient name filePath s) = Except.error err) :
    callEvents H name filePath s = callPrefix name filePath s ++
      [Event.loDebug "rpcclient error: " err, Event.logFatal err] :=
  newEffects_append _ _ _ (Call_handshake_error H name filePath s err h).2

theorem callEvents_dispense_error {β ρ : Type} (H : Host β ρ) (name filePath : String)
    (s : Proc β ρ) (rpc : ρ) (err : Error)
    (h : H.connect (callClient name filePath s) = Except.ok rpc)
    (hd : H.dispense rpc name = Except.error err) :
    callEvents H name filePath s = callPrefix name filePath s ++
      [Event.dispense rpc name, Event.loDebug "error: " err, Event.logFatal err] :=
  newEffects_append _ _ _ (Call_dispense_error H name filePath s rpc err h hd).2

theorem callEvents_assert_panic {β ρ : Type} (H : Host β ρ) (name filePath : String)
    (s : Proc β ρ) (rpc : ρ)
    (h : H.connect (callClient name filePath s) = Except.ok rpc)
    (hd : H.dispense rpc name = Except.ok none) :
    callEvents H name filePath s = callPrefix name filePath s ++ [Event.dispense rpc name] :=
  newEffects_append _ _ _ (Call_assert_panic H name filePath s rpc h hd).2

theorem callEvents_success {β ρ : Type} (H : Host β ρ) (name filePath : String)
    (s : Proc β ρ) (rpc : ρ) (raw : β)
    (h : H.connect (callClient name filePath s) = Except.ok rpc)
    (hd : H.dispense rpc name = Except.ok (some raw)) :
    callEvents H name filePath s = callPrefix name filePath s ++ [Event.dispense rpc name] :=
  newEffects_append _ _ _ (Call_success H name filePath s rpc raw h hd).2

/-- Every run of `Call` falls in one of four cases, each with its result and
its calls. -/
theorem Call_cases {β ρ : Type} (H : Host β ρ) (name filePath : String) (s : Proc β ρ) :
    (∃ err, H.connect (callClient name filePath s) = Except.error err ∧
      (Call H name filePath s).1 = CallResult.fatal err ∧
      callEvents H name filePath s = callPrefix name filePath s ++
        [Event.loDebug "rpcclient error: " err, Event.logFatal err]) ∨
    (∃ rpc err, H.connect (callClient name filePath s) = Except.ok rpc ∧
      H.dispense rpc name = Except.error err ∧
      (Call H name filePath s).1 = CallResult.fatal err ∧
      callEvents H name filePath s = callPrefix name filePath s ++
        [Event.dispense rpc name, Event.loDebug "error: " err, Event.logFatal err]) ∨
    (∃ rpc, H.connect (callClient name filePath s) = Except.ok rpc ∧
      H.dispense rpc name = Except.ok none ∧
      (Call H name filePath s).1 = CallResult.panicked ∧
      callEvents H name filePath s = callPrefix name filePath s ++ [Event.dispense rpc name]) ∨
    (∃ rpc raw, H.connect (callClient name filePath s) = Except.ok rpc ∧
      H.dispense rpc name = Except.ok (some raw) ∧
      (Call H name filePath s).1 = CallResult.returned raw (callClient name filePath s) ∧
      callEvents H name filePath s = callPrefix name filePath s ++ [Event.dispense rpc name]) := by
  cases h : H.connect (callClient name filePath s) with
  | error err =>
    exact Or.inl ⟨err, rfl, (Call_handshake_error H name filePath s err h).1,
      callEvents_handshake_error H name filePath s err h⟩
  | ok rpc =>
    cases hd : H.dispense rpc name with
    | error err =>
      exact Or.inr (Or.inl ⟨rpc, err, rfl, hd, (Call_dispense_error H name filePath s rpc err h hd).1,
        callEvents_dispense_error H name filePath s rpc err h hd⟩)
    | ok raw =>
      cases raw with
      | none =>
        exact Or.inr (Or.inr (Or.inl ⟨rpc, rfl, hd,
          (Call_assert_panic H name filePath s rpc h hd).1,
          callEvents_assert_panic H name filePath s rpc h hd⟩))
      | some b =>
        exact Or.inr (Or.inr (Or.inr ⟨rpc, b, rfl, hd,
          (Call_success H name filePath s rpc b h hd).1,
          callEvents_success H name filePath s rpc b h hd⟩))

theorem callPrefix_no_dispense {β ρ : Type} (name filePath : String) (s : Proc β ρ) :
    (callPrefix name filePath s).any Event.isDispense = false := by
  simp [callPrefix, Event.isDispense]

theorem callPrefix_no_kill {β ρ : Type} (name filePath : String) (s : Proc β ρ) :
    (callPrefix name filePath s).any Event.isKill = false := by
  simp [callPrefix, Event.isKill]

/-- C5, as the code has it: when `client.Client()` fails with `err`, `Call` logs the
error and hands `err` to `log.Fatal`, which ends the orchestrator process; control
does not come back to the caller, no value is returned and `Dispense` is not
called. -/
theorem call_handshake_failure_is_fatal {β ρ : Type} (H : Host β ρ) (name filePath : String)
    (s : Proc β ρ) (err : Error)
    (h : H.connect (callClient name filePath s) = Except.error err) :
    (Call H name filePath s).1 = CallResult.fatal err ∧
    (Call H name filePath s).1.exitsProcess = true ∧
    (Call H name filePath s).1.returnsToCaller = false ∧
    callEvents H name filePath s = callPrefix name filePath s ++
      [Event.loDebug "rpcclient error: " err, Event.logFatal err] ∧
    (callEvents H name filePath s).any Event.isDispense = false := by
  have hr := (Call_handshake_error H name filePath s err h).1
  have he := callEvents_handshake_error H name filePath s err h
  refine ⟨hr, ?_, ?_, he, ?_⟩
  · rw [hr]
    rfl
  · rw [hr]
    rfl
  · rw [he, List.any_append, callPrefix_no_dispense]
    simp [Event.isDispense]

/-- C5 at a concrete input: the handshake fails and the process is ended. -/
theorem call_handshake_failure_is_fatal_witness :
    handshakeFails.connect (callClient "tile" "/plugins/tile" freshProc) =
      Except.error "handshake failed" ∧
    (Call handshakeFails "tile" "/plugins/tile" freshProc).1 =
      CallResult.fatal "handshake failed" :=
  ⟨rfl, (call_handshake_failure_is_fatal handshakeFails "tile" "/plugins/tile" freshProc
    "handshake failed" rfl).1⟩

/-- C5, as the claim has it, fails: on a host whose handshake fails, `Call` does not
come back to its caller with an error value, it ends the process. -/
theorem call_handshake_failure_exits_process :
    handshakeFails.connect (callClient "tile" "/plugins/tile" freshProc) =
      Except.error "handshake failed" ∧
    (Call handshakeFails "tile" "/plugins/tile" freshProc).1.returnsToCaller = false ∧
    (Call handshakeFails "tile" "/plugins/tile" freshProc).1.exitsProcess = true :=
  ⟨rfl, rfl, rfl⟩

/-- C6, as the code has it: when the handshake succeeded and `Dispense(name)` fails
with `err`, `Call` logs the error and hands `err` to `log.Fatal`, which ends the
orchestrator process; control does not come back to the caller and no value is
returned. -/
theorem call_dispense_failure_is_fatal {β ρ : Type} (H : Host β ρ) (name filePath : String)
    (s : Proc β ρ) (rpc : ρ) (err : Error)
    (h : H.connect (callClient name filePath s) = Except.ok rpc)
    (hd : H.dispense rpc name = Except.error err) :
    (Call H name filePath s).1 = CallResult.fatal err ∧
    (Call H name filePath s).1.exitsProcess = true ∧
    (Call H name filePath s).1.returnsToCaller = false ∧
    callEvents H name filePath s = callPrefix name filePath s ++
      [Event.dispense rpc name, Event.loDebug "error: " err, Event.logFatal err] := by
  have hr := (Call_dispense_error H name filePath s rpc err h hd).1
  refine ⟨hr, ?_, ?_, callEvents_dispense_error H name filePath s rpc err h hd⟩
  · rw [hr]
    rfl
  · rw [hr]
    rfl

/-- C6 at a concrete input: the dispense fails and the process is ended. -/
theorem call_dispense_failure_is_fatal_witness :
    dispenseFails.connect (callClient "tile" "/plugins/tile" freshProc) = Except.ok 3 ∧
    dispenseFails.dispense 3 "tile" = Except.error "unknown plugin type: tile" ∧
    (Call dispenseFails "tile" "/plugins/tile" freshProc).1 =
      CallResult.fatal "unknown plugin type: tile" :=
  ⟨rfl, by simp [dispenseFails],
    (call_dispense_failure_is_fatal dispenseFails "tile" "/plugins/tile" freshProc
      3 "unknown plugin type: tile" rfl (by simp [dispenseFails])).1⟩

/-- C6, as the claim has it, fails: on a host whose dispense fails, `Call` does not
come back to its caller with an error value, it ends the process. -/
theorem call_dispense_failure_exits_process :
    dispenseFails.connect (callClient "tile" "/plugins/tile" freshProc) = Except.ok 3 ∧
    (dispenseFails.dispense 3 "tile").toBool = false ∧
    (Call dispenseFails "tile" "/plugins/tile" freshProc).1.returnsToCaller = false ∧
    (Call dispenseFails "tile" "/plugins/tile" freshProc).1.exitsProcess = true :=
  ⟨rfl, by decide, by decide, by decide⟩

/-- C7: the steps of `Call` come in a fixed order, and the first failure ends the
run. Every run starts with the placeholder registration, the construction of
the client and the handshake attempt, in that order, and the client was built
from a registry that already holds the placeholder. If the handshake fails,
`Dispense` is never called and nothing is returned; if the dispense fails,
nothing is returned; a proxy is returned only when the handshake succeeded and
the dispense after it yielded that proxy. -/
theorem call_steps_ordered_short_circuit {β ρ : Type} (H : Host β ρ) (name filePath : String)
    (s : Proc β ρ) :
    (∃ rest, callEvents H name filePath s =
      [Event.loDebug "registering plugin: " name, Event.logSetOutputDiscard,
       Event.newClient (callClient name filePath s).config,
       Event.clientClient (callClient name filePath s)] ++ rest) ∧
    ((callClient name filePath s).config.Plugins name).map (fun a => a.P) = some none ∧
    (∀ err, H.connect (callClient name filePath s) = Except.error err →
      (callEvents H name filePath s).any Event.isDispense = false ∧
      (Call H name filePath s).1.proxy = none ∧
      (Call H name filePath s).1.returnsToCaller = false) ∧
    (∀ rpc err, H.connect (callClient name filePath s) = Except.ok rpc →
      H.dispense rpc name = Except.error err →
      callEvents H name filePath s = callPrefix name filePath s ++
        [Event.dispense rpc name, Event.loDebug "error: " err, Event.logFatal err] ∧
      (Call H name filePath s).1.proxy = none ∧
      (Call H name filePath s).1.returnsToCaller = false) ∧
    (∀ p, (Call H name filePath s).1.proxy = some p →
      ∃ rpc, H.connect (callClient name filePath s) = Except.ok rpc ∧
        H.dispense rpc name = Except.ok (some p) ∧
        callEvents H name filePath s = callPrefix name filePath s ++
          [Event.dispense rpc name]) := by
  refine ⟨?_, ?_, ?_, ?_, ?_⟩
  · rcases Call_cases H name filePath s with ⟨err, _, _, he⟩ | ⟨rpc, err, _, _, _, he⟩ |
      ⟨rpc, _, _, _, he⟩ | ⟨rpc, raw, _, _, _, he⟩
    · exact ⟨_, he⟩
    · exact ⟨_, he⟩
    · exact ⟨_, he⟩
    · exact ⟨_, he⟩
  · simp [callClient, NewClient, callConfig, GetPlugins, RegisterPlugin, Proc.emit]
  · intro err h
    have hr := (Call_handshake_error H name filePath s err h).1
    have he := callEvents_handshake_error H name filePath s err h
    refine ⟨?_, ?_, ?_⟩
    · rw [he, List.any_append, callPrefix_no_dispense]
      simp [Event.isDispense]
    · rw [hr]
      rfl
    · rw [hr]
      rfl
  · intro rpc err h hd
    have hr := (Call_dispense_error H name filePath s rpc err h hd).1
    refine ⟨callEvents_dispense_error H name filePath s rpc err h hd, ?_, ?_⟩
    · rw [hr]
      rfl
    · rw [hr]
      rfl
  · intro p hp
    rcases Call_cases H name filePath s with ⟨err, _, hr, _⟩ | ⟨rpc, err, _, _, hr, _⟩ |
      ⟨rpc, _, _, hr, _⟩ | ⟨rpc, raw, h, hd, hr, he⟩
    · rw [hr] at hp
      simp [CallResult.proxy] at hp
    · rw [hr] at hp
      simp [CallResult.proxy] at hp
    · rw [hr] at hp
      simp [CallResult.proxy] at hp
    · rw [hr] at hp
      simp only [CallResult.proxy, Option.some.injEq] at hp
      subst hp
      exact ⟨rpc, h, hd, he⟩

/-- C8, as the code has it: on success the handle returned is the client that `Call`
built for the command of the subprocess, the one whose connection dispensed
the proxy. When the handshake or the dispense fails, `Call` ends the
orchestrator process and the caller receives no handle. In no run does `Call`
call `client.Kill`. -/
theorem call_handle_only_on_success {β ρ : Type} (H : Host β ρ) (name filePath : String)
    (s : Proc β ρ) :
    (∀ p c, (Call H name filePath s).1 = CallResult.returned p c →
      c = callClient name filePath s ∧
      c.config.Cmd = execCommand filePath ["plugin"] ∧
      ∃ rpc, H.connect c = Except.ok rpc ∧ H.dispense rpc name = Except.ok (some p)) ∧
    (∀ err, H.connect (callClient name filePath s) = Except.error err →
      (Call H name filePath s).1.handle.isSome = false ∧
      (Call H name filePath s).1.exitsProcess = true) ∧
    (∀ rpc err, H.connect (callClient name filePath s) = Except.ok rpc →
      H.dispense rpc name = Except.error err →
      (Call H name filePath s).1.handle.isSome = false ∧
      (Call H name filePath s).1.exitsProcess = true) ∧
    (callEvents H name filePath s).any Event.isKill = false := by
  refine ⟨?_, ?_, ?_, ?_⟩
  · intro p c hpc
    rcases Call_cases H name filePath s with ⟨err, _, hr, _⟩ | ⟨rpc, err, _, _, hr, _⟩ |
      ⟨rpc, _, _, hr, _⟩ | ⟨rpc, raw, h, hd, hr, _⟩
    · rw [hr] at hpc
      cases hpc
    · rw [hr] at hpc
      cases hpc
    · rw [hr] at hpc
      cases hpc
    · rw [hr] at hpc
      cases hpc
      exact ⟨rfl, rfl, rpc, h, hd⟩
  · intro err h
    rw [(Call_handshake_error H name filePath s err h).1]
    exact ⟨rfl, rfl⟩
  · intro rpc err h hd
    rw [(Call_dispense_error H name filePath s rpc err h hd).1]
    exact ⟨rfl, rfl⟩
  · rcases Call_cases H name filePath s with ⟨err, _, _, he⟩ | ⟨rpc, err, _, _, _, he⟩ |
      ⟨rpc, _, _, _, he⟩ | ⟨rpc, raw, _, _, _, he⟩
    · rw [he, List.any_append, callPrefix_no_kill]
      simp [Event.isKill]
    · rw [he, List.any_append, callPrefix_no_kill]
      simp [Event.isKill]
    · rw [he, List.any_append, callPrefix_no_kill]
      simp [Event.isKill]
    · rw [he, List.any_append, callPrefix_no_kill]
      simp [Event.isKill]

/-- C8, as the claim has it, fails: on a host whose handshake succeeds, so that the
subprocess runs, and whose dispense fails, the caller receives no handle, `Call`
has not called `client.Kill`, and the orchestrator process is ended. -/
theorem call_dispense_failure_leaves_subprocess :
    dispenseFails.connect (callClient "tile" "/plugins/tile" freshProc) = Except.ok 3 ∧
    (Call dispenseFails "tile" "/plugins/tile" freshProc).1.handle.isSome = false ∧
    (callEvents dispenseFails "tile" "/plugins/tile" freshProc).any Event.isKill = false ∧
    (Call dispenseFails "tile" "/plugins/tile" freshProc).1.exitsProcess = true :=
  ⟨rfl, by decide, by decide, by decide⟩

/-! ## Agreement between caller and runtime -/

/-- On an argument vector made of a path and the marker `plugin`, the vector that
`exec.Command(filePath, "plugin")` gives the subprocess, `Start` serves exactly
when the metadata token is not the marker. The value of the token is fixed by a
declaration outside the source at hand, so neither side of the equivalence is
settled here. -/
theorem marker_serves_iff {β ρ : Type} (pm : String) (jm : Marshal) (filePath : String)
    (plgn : Plugin β) (t : Proc β ρ) :
    serveBranch (startEvents pm jm [filePath, "plugin"] plgn t) = true ↔ pm ≠ "plugin" := by
  have hb := branches_of_args pm jm [filePath, "plugin"] plgn t
  by_cases h : pm = "plugin"
  · have hm : metaArgs pm [filePath, "plugin"] := by simp [metaArgs, h]
    rw [(hb.1 hm).2]
    simp [h]
  · have hm : ¬ metaArgs pm [filePath, "plugin"] := by
      simp only [metaArgs, List.length_cons, List.length_nil, List.getElem?_cons_succ,
        List.getElem?_cons_zero, Option.some.injEq, true_and]
      exact fun e => h e.symm
    rw [(hb.2 hm).2]
    simp [h]

/-- C10: in a build whose package variable `handshakeConfig` holds `hc`, whatever
the registries and logs of the two processes, a serving run of `Start` hands
`plugin.Serve` one configuration, whose handshake descriptor is `hc`; `Call`
hands the client the descriptor returned by `GetHandshake`, which is `hc` too.
The two agree in protocol version, cookie key and cookie value. `GetHandshake`
returns `hc` whatever the registry holds, also after `RegisterPlugin`, `Start`
and `Call` have run. -/
theorem handshake_descriptor_same_on_both_sides {β ρ γ δ : Type} (hc : HandshakeConfig)
    (pm : String) (jm : Marshal) (args : List String) (plgn : Plugin γ)
    (mServer : PluginMap γ) (eServer : List (Event γ δ))
    (H : Host β ρ) (name filePath : String) (mCaller : PluginMap β)
    (eCaller : List (Event β ρ))
    (hserve : ¬ (args.length = 2 ∧ args[1]? = some pm)) :
    (servedConfigs (startEvents pm jm args plgn
        (Proc.mk mServer hc eServer))).map
      (fun cfg => cfg.HandshakeConfig) = [hc] ∧
    (callClient name filePath
      (Proc.mk mCaller hc eCaller)).config.HandshakeConfig =
        GetHandshake (Proc.mk mCaller hc eCaller) ∧
    (callClient name filePath
      (Proc.mk mCaller hc eCaller)).config.HandshakeConfig
        = hc ∧
    (∀ cfg ∈ servedConfigs (startEvents pm jm args plgn
        (Proc.mk mServer hc eServer)),
      cfg.HandshakeConfig.ProtocolVersion =
        (callClient name filePath (Proc.mk mCaller hc eCaller)).config.HandshakeConfig.ProtocolVersion ∧
      cfg.HandshakeConfig.MagicCookieKey =
        (callClient name filePath (Proc.mk mCaller hc eCaller)).config.HandshakeConfig.MagicCookieKey ∧
      cfg.HandshakeConfig.MagicCookieValue =
        (callClient name filePath (Proc.mk mCaller hc eCaller)).config.HandshakeConfig.MagicCookieValue) ∧
    (∀ (m : PluginMap β) (e : List (Event β ρ)),
      GetHandshake (Proc.mk m hc e) = hc) ∧
    (∀ (n : String) (p : BackupRestorer β),
      GetHandshake (RegisterPlugin n p
        (Proc.mk mCaller hc eCaller)) = hc) ∧
    GetHandshake (Start pm jm args plgn
      (Proc.mk mServer hc eServer)) = hc ∧
    GetHandshake (Call H name filePath
      (Proc.mk mCaller hc eCaller)).2 = hc := by
  have hev := startEvents_serve pm jm args plgn
    (Proc.mk mServer hc eServer) hserve
  refine ⟨?_, rfl, rfl, ?_, fun _ _ => rfl, fun _ _ => rfl, ?_, ?_⟩
  · rw [hev]
    simp [servedConfigs]
  · intro cfg hcfg
    rw [hev] at hcfg
    simp only [servedConfigs, List.filterMap_cons, List.filterMap_nil, List.mem_singleton] at hcfg
    subst hcfg
    exact ⟨rfl, rfl, rfl⟩
  · exact Start_handshake pm jm args plgn _
  · unfold Call
    simp only
    split
    · rfl
    · split <;> rfl

/-- C10 at a concrete input: started by the caller's vector, the plugin serves with
the descriptor of the fresh process. -/
theorem handshake_descriptor_same_on_both_sides_witness :
    ¬ (["/plugins/tile", "plugin"].length = 2 ∧
      ["/plugins/tile", "plugin"][1]? = some "plugin-meta") ∧
    (servedConfigs (startEvents "plugin-meta" nameMarshal ["/plugins/tile", "plugin"] tilePlugin
        freshProc)).map (fun cfg => cfg.HandshakeConfig) =
      [{ ProtocolVersion := 1, MagicCookieKey := "KEY", MagicCookieValue := "VALUE" }] ∧
    (callClient "tile" "/plugins/tile" freshProc).config.HandshakeConfig =
      { ProtocolVersion := 1, MagicCookieKey := "KEY", MagicCookieValue := "VALUE" } :=
  ⟨by decide,
    (handshake_descriptor_same_on_both_sides
      { ProtocolVersion := 1, MagicCookieKey := "KEY", MagicCookieValue := "VALUE" }
      "plugin-meta" nameMarshal ["/plugins/tile", "plugin"] tilePlugin (fun _ => none)
      ([] : List (Event Nat Nat)) bothSucceed "tile" "/plugins/tile" (fun _ => none) [] (by decide)).1,
    (handshake_descriptor_same_on_both_sides
      { ProtocolVersion := 1, MagicCookieKey := "KEY", MagicCookieValue := "VALUE" }
      "plugin-meta" nameMarshal ["/plugins/tile", "plugin"] tilePlugin (fun _ => none)
      ([] : List (Event Nat Nat)) bothSucceed "tile" "/plugins/tile" (fun _ => none) [] (by decide)).2.2.1⟩

end Cfops
